import Mathlib

/-!
Verification of the `change-detector-rs` library (`src/lib.rs`).

The library is a single generic type `ChangeDetector<T>` storing the 64-bit
hash of the last observed value.  The hash function used by the Rust code is
the standard library's `DefaultHasher`, external to this repository; the spec
only requires it to be a deterministic 64-bit hash, so the embedding takes the
hash function as an explicit parameter `hash_of : T → Nat`.  The Rust methods
mutate `self`; the embedding passes the state explicitly: a method returning
`R` becomes a function returning `R × ChangeDetector T`.
-/

/-- Embeds the Rust struct `ChangeDetector<T>`: a stored `u64` hash.  The
`PhantomData<T>` marker carries no runtime data; the type parameter `T`
plays its role. -/
structure ChangeDetector (T : Type) where
  hash : Nat
deriving DecidableEq

namespace ChangeDetector

/-- Embeds `ChangeDetector::new`: constructs a detector with stored hash 0. -/
def new (T : Type) : ChangeDetector T :=
  ChangeDetector.mk 0

/-- Embeds `ChangeDetector::untouched`: `self.hash == 0`. -/
def untouched {T : Type} (d : ChangeDetector T) : Bool :=
  d.hash == 0

/-- Embeds the accessor `ChangeDetector::hash`: returns the stored hash
verbatim (named `hashValue` because the field projection takes the name
`hash`). -/
def hashValue {T : Type} (d : ChangeDetector T) : Nat :=
  d.hash

/-- Embeds `ChangeDetector::detect`: computes the hash of `value`, compares
it with the stored hash, unconditionally overwrites the stored hash, and
returns `some value` exactly when the hashes differed. -/
def detect {T : Type} (hash_of : T → Nat) (d : ChangeDetector T) (value : T) :
    Option T × ChangeDetector T :=
  let hash := hash_of value
  let change := d.hash != hash
  if change then
    (some value, ChangeDetector.mk hash)
  else
    (none, ChangeDetector.mk hash)

/-- Embeds `ChangeDetector::detect_owned`: same body as `detect`, but the
Rust version takes the value by ownership instead of by reference (ownership
is invisible in the embedding). -/
def detect_owned {T : Type} (hash_of : T → Nat) (d : ChangeDetector T) (value : T) :
    Option T × ChangeDetector T :=
  let hash := hash_of value
  let change := d.hash != hash
  if change then
    (some value, ChangeDetector.mk hash)
  else
    (none, ChangeDetector.mk hash)

/-- Runs `detect` over a list of values, collecting the results in order and
threading the detector state. -/
def detectList {T : Type} (hash_of : T → Nat) (d : ChangeDetector T) :
    List T → List (Option T) × ChangeDetector T
  | [] => ([], d)
  | v :: vs =>
    let step := detect hash_of d v
    let rest := detectList hash_of step.2 vs
    (step.1 :: rest.1, rest.2)

/-- Runs an arbitrary sequence of detection calls: each list element is a pair
whose boolean selects `detect_owned` (`true`) or `detect` (`false`) and whose
second component is the value passed.  Only the final state is kept. -/
def runCalls {T : Type} (hash_of : T → Nat) (d : ChangeDetector T) :
    List (Bool × T) → ChangeDetector T
  | [] => d
  | c :: rest =>
    runCalls hash_of
      (if c.1 then (detect_owned hash_of d c.2).2 else (detect hash_of d c.2).2)
      rest

end ChangeDetector

/-- Alternating list `[a, b, a, b, ...]` of length `n`, used for the
oscillating-values property. -/
def altList {T : Type} (a b : T) : Nat → List T
  | 0 => []
  | n + 1 => a :: altList b a n

/-- Closed form of `detect`: it never fails, returns `some value` iff the new
hash differs from the stored one, and always stores the new hash. -/
theorem detect_eq {T : Type} (hash_of : T → Nat) (d : ChangeDetector T) (v : T) :
    ChangeDetector.detect hash_of d v =
      (if hash_of v = d.hash then none else some v, ChangeDetector.mk (hash_of v)) := by
  unfold ChangeDetector.detect
  by_cases h : hash_of v = d.hash
  · simp [h]
  · simp [h, Ne.symm h]

/-- Closed form of `detect_owned`, identical to that of `detect`. -/
theorem detect_owned_eq {T : Type} (hash_of : T → Nat) (d : ChangeDetector T) (v : T) :
    ChangeDetector.detect_owned hash_of d v =
      (if hash_of v = d.hash then none else some v, ChangeDetector.mk (hash_of v)) := by
  unfold ChangeDetector.detect_owned
  by_cases h : hash_of v = d.hash
  · simp [h]
  · simp [h, Ne.symm h]

/-- C1: `detect` computes the hash of the value, unconditionally overwrites
the stored hash with it, returns `some` exactly when the new hash differs
from the previously stored hash and `none` otherwise, and the value returned
when present is the caller-supplied value itself. -/
theorem detect_spec {T : Type} (hash_of : T → Nat) (d : ChangeDetector T) (v : T) :
    ((ChangeDetector.detect hash_of d v).2).hash = hash_of v ∧
    ((ChangeDetector.detect hash_of d v).1 = some v ↔ hash_of v ≠ d.hash) ∧
    ((ChangeDetector.detect hash_of d v).1 = none ↔ hash_of v = d.hash) ∧
    (∀ w : T, (ChangeDetector.detect hash_of d v).1 = some w → w = v) := by
  rw [detect_eq]
  by_cases h : hash_of v = d.hash
  · simp [h]
  · simp [h]

/-- C1 witness: the specification evaluated at a concrete detector and
value. -/
theorem detect_spec_witness :
    ((ChangeDetector.detect (fun n => n + 1) (ChangeDetector.mk 0 : ChangeDetector Nat) 4).2).hash
      = 5 ∧
    (ChangeDetector.detect (fun n => n + 1) (ChangeDetector.mk 0 : ChangeDetector Nat) 4).1
      = some 4 := by
  have h := detect_spec (fun n => n + 1) (ChangeDetector.mk 0 : ChangeDetector Nat) 4
  exact ⟨h.1, h.2.1.mpr (by decide)⟩

/-- C2: `detect_owned` has identical comparison and state-update semantics to
`detect`: on every state and value the two calls return the same optional
result and the same updated state; the owned value comes back wrapped as
`some` on change and is dropped (result `none`) on no change. -/
theorem detect_owned_equiv {T : Type} (hash_of : T → Nat) (d : ChangeDetector T) (v : T) :
    ChangeDetector.detect_owned hash_of d v = ChangeDetector.detect hash_of d v ∧
    ((ChangeDetector.detect_owned hash_of d v).1 = some v ↔ hash_of v ≠ d.hash) ∧
    ((ChangeDetector.detect_owned hash_of d v).1 = none ↔ hash_of v = d.hash) := by
  refine ⟨rfl, ?_, ?_⟩ <;> rw [detect_owned_eq] <;> by_cases h : hash_of v = d.hash <;> simp [h]

/-- Helper: the state reached by one call of `runCalls` stores the hash of
the value passed, whichever of the two detection operations was used. -/
theorem runCalls_cons {T : Type} (hash_of : T → Nat) (d : ChangeDetector T)
    (c : Bool × T) (rest : List (Bool × T)) :
    ChangeDetector.runCalls hash_of d (c :: rest) =
      ChangeDetector.runCalls hash_of (ChangeDetector.mk (hash_of c.2)) rest := by
  conv_lhs => rw [ChangeDetector.runCalls]
  rw [detect_eq, detect_owned_eq]
  simp

/-- Helper: the hash stored after an arbitrary sequence of calls is the hash
of the last value passed, or the starting hash if the sequence is empty. -/
theorem runCalls_hash {T : Type} (hash_of : T → Nat) (calls : List (Bool × T)) :
    ∀ d : ChangeDetector T,
      (ChangeDetector.runCalls hash_of d calls).hash =
        Option.elim calls.getLast? d.hash (fun c => hash_of c.2) := by
  induction calls with
  | nil => intro d; rfl
  | cons c rest ih =>
    intro d
    rw [runCalls_cons, ih]
    cases rest with
    | nil => rfl
    | cons c2 rest2 => rw [List.getLast?_cons_cons]; rfl

/-- C3: after any sequence of `detect` / `detect_owned` calls starting from
`new`, the stored hash (which is what the `hash` accessor returns) equals the
hash of the last value passed, or 0 if no value has ever been passed.  Each
call is a pair whose boolean picks `detect_owned` over `detect`. -/
theorem runCalls_invariant {T : Type} (hash_of : T → Nat) (calls : List (Bool × T)) :
    (ChangeDetector.runCalls hash_of (ChangeDetector.new T) calls).hashValue =
      Option.elim calls.getLast? 0 (fun c => hash_of c.2) := by
  exact runCalls_hash hash_of calls (ChangeDetector.new T)

/-- C4: on a freshly constructed detector, the first `detect` (and likewise
the first `detect_owned`) of a value whose hash is nonzero reports a change
carrying that very value. -/
theorem first_detect_changed {T : Type} (hash_of : T → Nat) (v : T)
    (h : hash_of v ≠ 0) :
    ChangeDetector.detect hash_of (ChangeDetector.new T) v
        = (some v, ChangeDetector.mk (hash_of v)) ∧
    ChangeDetector.detect_owned hash_of (ChangeDetector.new T) v
        = (some v, ChangeDetector.mk (hash_of v)) := by
  rw [detect_eq, detect_owned_eq]
  simp [ChangeDetector.new, h]

/-- C4 witness: concrete first detection on a fresh detector. -/
theorem first_detect_changed_witness :
    ChangeDetector.detect (fun n => n + 1) (ChangeDetector.new Nat) 7
        = (some 7, ChangeDetector.mk 8) ∧
    ChangeDetector.detect_owned (fun n => n + 1) (ChangeDetector.new Nat) 7
        = (some 7, ChangeDetector.mk 8) :=
  first_detect_changed (fun n => n + 1) 7 (by decide)

/-- Helper: once the detector already stores the hash of `v`, repeating `v`
any number of times yields `none` every time and leaves the state fixed. -/
theorem detectList_replicate_none {T : Type} (hash_of : T → Nat) (v : T) (m : Nat) :
    ChangeDetector.detectList hash_of (ChangeDetector.mk (hash_of v)) (List.replicate m v) =
      (List.replicate m none, ChangeDetector.mk (hash_of v)) := by
  induction m with
  | zero => rfl
  | succ k ih =>
    rw [List.replicate_succ]
    unfold ChangeDetector.detectList
    rw [detect_eq]
    simp [ih, List.replicate_succ]

/-- C5: starting from a fresh detector, feeding the same value (of nonzero
hash) `n ≥ 1` times yields a change report on the first call and "no change"
on each of the remaining `n - 1` calls. -/
theorem repeat_detect_spec {T : Type} (hash_of : T → Nat) (v : T)
    (h : hash_of v ≠ 0) (n : Nat) (hn : 1 ≤ n) :
    (ChangeDetector.detectList hash_of (ChangeDetector.new T) (List.replicate n v)).1 =
      some v :: List.replicate (n - 1) none := by
  obtain ⟨m, rfl⟩ : ∃ m, n = m + 1 := ⟨n - 1, (Nat.succ_pred_eq_of_pos hn).symm⟩
  rw [List.replicate_succ]
  unfold ChangeDetector.detectList
  rw [detect_eq]
  simp [ChangeDetector.new, h, detectList_replicate_none]

/-- C5 witness: three repetitions of the same value on a fresh detector. -/
theorem repeat_detect_spec_witness :
    (ChangeDetector.detectList (fun n => n + 1) (ChangeDetector.new Nat)
        (List.replicate 3 6)).1 = some 6 :: List.replicate 2 none :=
  repeat_detect_spec (fun n => n + 1) 6 (by decide) 3 (by decide)

/-- C6 counterexample: the claim as stated fails.  Take the hash function to
be the identity on `Nat`, `v1 = 0` and `v2 = 1`: the hashes differ, yet the
first call on a fresh detector reports "no change", because `hash_of v1 = 0`
coincides with the sentinel stored by `new`. -/
theorem two_values_counterexample :
    (fun n : Nat => n) 0 ≠ (fun n : Nat => n) 1 ∧
    (ChangeDetector.detectList (fun n : Nat => n) (ChangeDetector.new Nat) [0, 1]).1 ≠
      [some 0, some 1] := by
  decide

/-- Helper: oscillating between two values whose hashes differ reports a
change on every call, provided the first value's hash also differs from the
hash currently stored. -/
theorem detectList_alt {T : Type} (hash_of : T → Nat) :
    ∀ (n : Nat) (a b : T) (d : ChangeDetector T),
      d.hash ≠ hash_of a → hash_of a ≠ hash_of b →
      (ChangeDetector.detectList hash_of d (altList a b n)).1 = (altList a b n).map some := by
  intro n
  induction n with
  | zero => intro a b d _ _; rfl
  | succ k ih =>
    intro a b d hda hab
    rw [altList]
    unfold ChangeDetector.detectList
    rw [detect_eq]
    simp [Ne.symm hda]
    exact ih b a (ChangeDetector.mk (hash_of a)) hab (Ne.symm hab)

/-- C6 (amended): for values `v1`, `v2` with differing hashes AND
`hash_of v1 ≠ 0`, a fresh detector reports "changed" on `v1` then on `v2`;
and oscillating `v1, v2, v1, v2, ...` reports "changed" on every call.  The
amendment adds the `hash_of v1 ≠ 0` hypothesis the first call needs, which
the claim as stated omits. -/
theorem two_values_amended {T : Type} (hash_of : T → Nat) (v1 v2 : T)
    (h0 : hash_of v1 ≠ 0) (h12 : hash_of v1 ≠ hash_of v2) :
    (ChangeDetector.detectList hash_of (ChangeDetector.new T) [v1, v2]).1 =
        [some v1, some v2] ∧
    ∀ n : Nat,
      (ChangeDetector.detectList hash_of (ChangeDetector.new T) (altList v1 v2 n)).1 =
        (altList v1 v2 n).map some := by
  constructor
  · simp [ChangeDetector.detectList, detect_eq, ChangeDetector.new, h0, Ne.symm h12]
  · intro n
    exact detectList_alt hash_of n v1 v2 (ChangeDetector.new T) (Ne.symm h0) h12

/-- C6 witness: the amended claim at the identity hash, values 1 and 2, with
an oscillation of length 5. -/
theorem two_values_amended_witness :
    (ChangeDetector.detectList (fun n : Nat => n) (ChangeDetector.new Nat) [1, 2]).1 =
        [some 1, some 2] ∧
    (ChangeDetector.detectList (fun n : Nat => n) (ChangeDetector.new Nat) (altList 1 2 5)).1 =
        (altList 1 2 5).map some :=
  ⟨(two_values_amended (fun n : Nat => n) 1 2 (by decide) (by decide)).1,
   (two_values_amended (fun n : Nat => n) 1 2 (by decide) (by decide)).2 5⟩

/-- C7: the scenario of the source test `change_detect_works`: on a fresh
integer detector the sequence `[1, 1, 2, 1, 1]` yields
`[changed 1, no-change, changed 2, changed 1, no-change]`.  The hash function
is abstract here; the hypotheses record the two facts the scenario relies on
(and which the concrete `DefaultHasher` satisfies, as the repository's own
passing test shows): `1` does not hash to the sentinel 0, and `1` and `2`
hash differently. -/
theorem test_sequence_spec (hash_of : Nat → Nat)
    (h1 : hash_of 1 ≠ 0) (h21 : hash_of 2 ≠ hash_of 1) :
    (ChangeDetector.detectList hash_of (ChangeDetector.new Nat) [1, 1, 2, 1, 1]).1 =
      [some 1, none, some 2, some 1, none] := by
  simp [ChangeDetector.detectList, detect_eq, ChangeDetector.new, h1, h21, Ne.symm h21]

/-- C7 witness: the scenario evaluated at a concrete hash function. -/
theorem test_sequence_spec_witness :
    (ChangeDetector.detectList (fun n : Nat => n) (ChangeDetector.new Nat) [1, 1, 2, 1, 1]).1 =
      [some 1, none, some 2, some 1, none] :=
  test_sequence_spec (fun n : Nat => n) (by decide) (by decide)

/-- C8: `new` stores hash 0, so a fresh detector is `untouched` and its
`hash` accessor returns 0; `untouched` returns `true` exactly when the
stored hash still equals the sentinel 0, and the accessor returns the stored
hash verbatim.  `untouched` and `hashValue` take the state and return only a
`Bool` / `Nat`, so by construction neither modifies the detector. -/
theorem new_untouched_spec (T : Type) :
    (ChangeDetector.new T).hash = 0 ∧
    (ChangeDetector.new T).untouched = true ∧
    (ChangeDetector.new T).hashValue = 0 ∧
    ∀ d : ChangeDetector T, (d.untouched = true ↔ d.hash = 0) ∧ d.hashValue = d.hash := by
  refine ⟨rfl, rfl, rfl, fun d => ⟨?_, rfl⟩⟩
  simp [ChangeDetector.untouched]

/-- C9: every operation is total: each is a function in the embedding, and
each has an explicit closed form with no error, panic, or unreachable
branch — `detect` and `detect_owned` always return a defined pair, `new`,
`untouched` and `hashValue` always return a value. -/
theorem operations_total {T : Type} (hash_of : T → Nat) (d : ChangeDetector T) (v : T) :
    ChangeDetector.new T = ChangeDetector.mk 0 ∧
    (d.untouched = true ↔ d.hash = 0) ∧
    d.hashValue = d.hash ∧
    ChangeDetector.detect hash_of d v =
      (if hash_of v = d.hash then none else some v, ChangeDetector.mk (hash_of v)) ∧
    ChangeDetector.detect_owned hash_of d v =
      (if hash_of v = d.hash then none else some v, ChangeDetector.mk (hash_of v)) := by
  refine ⟨rfl, ?_, rfl, detect_eq hash_of d v, detect_owned_eq hash_of d v⟩
  simp [ChangeDetector.untouched]

/-- C10: frame property: when `detect` (or `detect_owned`) reports "no
change", the resulting detector state equals the starting state, so later
`hash` and `untouched` calls are unaffected by the call. -/
theorem no_change_frame {T : Type} (hash_of : T → Nat) (d : ChangeDetector T) (v : T) :
    ((ChangeDetector.detect hash_of d v).1 = none →
      (ChangeDetector.detect hash_of d v).2 = d) ∧
    ((ChangeDetector.detect_owned hash_of d v).1 = none →
      (ChangeDetector.detect_owned hash_of d v).2 = d) := by
  rw [detect_eq, detect_owned_eq]
  by_cases h : hash_of v = d.hash
  · simp [h]
  · simp [h]

/-- C10 witness: a repeated value leaves the state untouched. -/
theorem no_change_frame_witness :
    (ChangeDetector.detect (fun n : Nat => n) (ChangeDetector.mk 5) 5).2 =
        ChangeDetector.mk 5 ∧
    (ChangeDetector.detect_owned (fun n : Nat => n) (ChangeDetector.mk 5) 5).2 =
        ChangeDetector.mk 5 :=
  ⟨(no_change_frame (fun n : Nat => n) (ChangeDetector.mk 5) 5).1 rfl,
   (no_change_frame (fun n : Nat => n) (ChangeDetector.mk 5) 5).2 rfl⟩
